import Mathlib

/-!
Shallow embedding of src/scripts/img_resizer.py (the whole repository's single
program).  Pure image operations (PIL.Image.new, thumbnail, paste, convert)
become Lean functions on an explicit image record; filesystem effects of one
run (directory creation, file writes, per-file skips, exit code) are collected
in a RunResult record; the environment (which paths exist, what they decode
to, path resolution) is an explicit Env record.  Machine reals of Python
(float division inside PIL's thumbnail) are modelled with exact rationals ℚ;
the LANCZOS resampling kernel and the exact alpha-compositing formula are
abstracted to computable placeholders, since no claim depends on resampled or
blended pixel values, only on geometry, fill colors and the set of files
written.
-/

/-- One pixel value, a quadruple of channel intensities (r, g, b, a). -/
structure RGBA where
  r : ℕ
  g : ℕ
  b : ℕ
  a : ℕ
deriving DecidableEq, Repr

/-- An in-memory image: dimensions, PIL mode string ("RGBA", "RGB", ...), and
a total pixel accessor (coordinates outside the bounds are irrelevant). -/
structure Img where
  width : ℕ
  height : ℕ
  mode : String
  px : ℤ → ℤ → RGBA

/-- PIL Image.new(mode, size, color): a fresh canvas of exactly the given
size, filled with the given color. -/
def Image_new (mode : String) (sz : ℕ × ℕ) (c : RGBA) : Img :=
  { width := sz.1, height := sz.2, mode := mode, px := fun _ _ => c }

/-- PIL Image.resize to exact target dimensions.  The LANCZOS kernel is
abstracted to coordinate remapping; claims only use the resulting geometry. -/
def resizeTo (img : Img) (sz : ℕ × ℕ) : Img :=
  { width := sz.1, height := sz.2, mode := img.mode,
    px := fun i j => img.px (i * img.width / sz.1) (j * img.height / sz.2) }

/-- Rounding helper of PIL Image.thumbnail: pick between floor and ceiling of
the exact value, preferring the one whose aspect error (measured by key) is
smaller (floor on ties, as Python's min does), then clamp to at least 1. -/
def round_aspect (q : ℚ) (key : ℤ → ℚ) : ℤ :=
  max (if key ⌊q⌋ ≤ key ⌈q⌉ then ⌊q⌋ else ⌈q⌉) 1

/-- Size computation of PIL Image.thumbnail(size): unchanged when the image
already fits inside the target box, otherwise the limiting dimension is set
to the target and the other is the aspect-rounded proportional value.
Python's float division is modelled with exact rationals. -/
def thumbnailSize (w h tw th : ℕ) : ℕ × ℕ :=
  if tw ≥ w ∧ th ≥ h then (w, h)
  else
    let aspect : ℚ := (w : ℚ) / (h : ℚ)
    if (tw : ℚ) / (th : ℚ) ≥ aspect then
      ((round_aspect ((th : ℚ) * aspect) (fun n => |aspect - (n : ℚ) / (th : ℚ)|)).toNat, th)
    else
      (tw, (round_aspect ((tw : ℚ) / aspect)
        (fun n => if n = 0 then 0 else |aspect - (tw : ℚ) / (n : ℚ)|)).toNat)

/-- PIL Image.thumbnail(size, LANCZOS): in-place proportional shrink, never
growing the image, modelled as resizing to thumbnailSize. -/
def thumbnail (img : Img) (sz : ℕ × ℕ) : Img :=
  resizeTo img (thumbnailSize img.width img.height sz.1 sz.2)

/-- PIL paste without a mask: the pasted image replaces the base's pixels
(alpha included) on its rectangle; the base keeps its own dimensions. -/
def paste (base over : Img) (x y : ℤ) : Img :=
  { width := base.width, height := base.height, mode := base.mode,
    px := fun i j =>
      if x ≤ i ∧ i < x + over.width ∧ y ≤ j ∧ j < y + over.height then
        over.px (i - x) (j - y)
      else base.px i j }

/-- Per-channel alpha blend used by a masked paste.  The exact PIL compositing
arithmetic is approximated; no claim inspects blended values. -/
def blend (fg bg : RGBA) : RGBA :=
  { r := (fg.r * fg.a + bg.r * (255 - fg.a)) / 255,
    g := (fg.g * fg.a + bg.g * (255 - fg.a)) / 255,
    b := (fg.b * fg.a + bg.b * (255 - fg.a)) / 255,
    a := (fg.a * 255 + bg.a * (255 - fg.a)) / 255 }

/-- PIL paste with the pasted image's own alpha channel as mask: inside the
rectangle the pixels are blended, outside the base is untouched. -/
def pasteMask (base over : Img) (x y : ℤ) : Img :=
  { width := base.width, height := base.height, mode := base.mode,
    px := fun i j =>
      if x ≤ i ∧ i < x + over.width ∧ y ≤ j ∧ j < y + over.height then
        blend (over.px (i - x) (j - y)) (base.px i j)
      else base.px i j }

/-- PIL Image.convert: converting RGBA to "RGB" drops the alpha band (pixels
become opaque); converting to "RGBA" keeps the pixel data. -/
def convert (img : Img) (mode : String) : Img :=
  if mode = "RGB" then
    { width := img.width, height := img.height, mode := "RGB",
      px := fun i j => { r := (img.px i j).r, g := (img.px i j).g,
                         b := (img.px i j).b, a := 255 } }
  else
    { width := img.width, height := img.height, mode := mode, px := img.px }

/-- Lines 49-50: convert the source to RGBA unless it already is RGBA. -/
def toRGBA (img : Img) : Img :=
  if img.mode ≠ "RGBA" then convert img "RGBA" else img

/-- Lines 57-65: the fixed table of sized variants (filename, (width, height));
Python dict iteration follows insertion order. -/
def sizes : List (String × ℕ × ℕ) :=
  [("favicon-16x16.png", (16, 16)),
   ("favicon-32x32.png", (32, 32)),
   ("favicon-48x48.png", (48, 48)),
   ("apple-touch-icon.png", (180, 180)),
   ("logo-192.png", (192, 192)),
   ("logo-512.png", (512, 512)),
   ("logo-64.png", (64, 64))]

/-- Line 88: the three sizes embedded in favicon.ico. -/
def ico_sizes : List (ℕ × ℕ) := [(16, 16), (32, 32), (48, 48)]

/-- Python's floor division t // s of the centering computation, on ℤ as in
Python (the operands are plain ints there). -/
def centerOffset (t s : ℕ) : ℤ := Int.fdiv ((t : ℤ) - (s : ℤ)) 2

/-- Lines 75-82 and 92-97: thumbnail into the target box, allocate a fully
transparent RGBA canvas of exactly the target size, and paste the shrunk
image at the floor-division centering offset. -/
def fitAndCenter (img : Img) (sz : ℕ × ℕ) : Img :=
  let resized := thumbnail img sz
  let canvas := Image_new "RGBA" sz { r := 0, g := 0, b := 0, a := 0 }
  let x := centerOffset sz.1 resized.width
  let y := centerOffset sz.2 resized.height
  paste canvas resized x y

/-- Lines 110-122: the OG banner, a 1200x630 opaque-white RGBA canvas, the
logo shrunk into a 300x300 box and pasted centered with its alpha as mask,
then flattened to "RGB" before saving. -/
def makeOg (img : Img) : Img :=
  let og_size : ℕ × ℕ := (1200, 630)
  let og_image := Image_new "RGBA" og_size { r := 255, g := 255, b := 255, a := 255 }
  let og_logo := thumbnail img (300, 300)
  let x := centerOffset og_size.1 og_logo.width
  let y := centerOffset og_size.2 og_logo.height
  convert (pasteMask og_image og_logo x y) "RGB"

/-- Bytes written for one file: either a single PNG image or the favicon.ico
container holding several images. -/
inductive FileContent where
  | png (img : Img)
  | ico (imgs : List Img)

/-- Content of one sized variant (line 84's canvas.save as PNG). -/
def variantContent (img : Img) (sz : ℕ × ℕ) : FileContent :=
  .png (fitAndCenter img sz)

/-- Frame selection of Pillow's ICO encoder (IcoImagePlugin, function
underscore-save): the requested sizes are walked in sorted deduplicated
order (the identity for this program's already sorted, duplicate-free
request list); a size wider or taller than the BASE image passed to save, or
above 256, is dropped; a surviving size takes the first provided image of
exactly that size, falling back to a thumbnail of the base image. -/
def ico_save (im : Img) (append_images : List Img)
    (reqSizes : List (ℕ × ℕ)) : List Img :=
  let provided_ims := im :: append_images
  reqSizes.filterMap (fun sz =>
    if sz.1 > im.width ∨ sz.2 > im.height ∨ sz.1 > 256 ∨ sz.2 > 256 then none
    else
      match provided_ims.find? (fun p => p.width == sz.1 && p.height == sz.2) with
      | some p => some p
      | none => some (thumbnail im sz))

/-- Content of favicon.ico (lines 88-106): the three independent fitAndCenter
canvases are built, then ico_images[0] — the 16x16 canvas — is saved with the
other two as append_images and sizes=[(16,16),(32,32),(48,48)]; the encoder's
size filter (see ico_save) keeps only frames fitting the 16x16 base. -/
def icoContent (img : Img) : FileContent :=
  let ico_images := ico_sizes.map (fun s => fitAndCenter img s)
  match ico_images with
  | base :: rest => .ico (ico_save base rest ico_sizes)
  | [] => .ico []

/-- Content of og-image.png (line 122). -/
def ogContent (img : Img) : FileContent :=
  .png (makeOg img)

/-- The world a run sees: whether the source path exists, whether it decodes
as an image, what it decodes to, and filesystem path resolution
(Path.resolve). -/
structure Env where
  sourceExists : String → Bool
  decodes : String → Bool
  decode : String → Img
  resolve : String → String

/-- Observable filesystem effects and exit status of one run. -/
structure RunResult where
  exitCode : ℕ
  mkdirs : List String
  writes : List (String × FileContent)
  skips : List String

/-- Line 71's guard: the resolved path of output_dir/fname equals the
resolved source path. -/
def selfOverwrite (env : Env) (source_path output_dir fname : String) : Bool :=
  env.resolve (output_dir ++ "/" ++ fname) == env.resolve source_path

/-- Lines 34-126, resize_logo: mkdir the output directory first (line 39),
then exit 1 if the source does not exist (lines 41-43) or does not decode
(line 46 raising, which terminates Python with exit code 1); otherwise write
each sized variant unless the self-overwrite guard skips it, then favicon.ico
and og-image.png unconditionally, and finish with exit code 0. -/
def resize_logo (env : Env) (source_path : String) (output_dir : String) : RunResult :=
  if env.sourceExists source_path = false then
    { exitCode := 1, mkdirs := [output_dir], writes := [], skips := [] }
  else if env.decodes source_path = false then
    { exitCode := 1, mkdirs := [output_dir], writes := [], skips := [] }
  else
    let img := toRGBA (env.decode source_path)
    let variantWrites := sizes.filterMap (fun e =>
      if selfOverwrite env source_path output_dir e.1 then none
      else some (e.1, variantContent img e.2))
    let skipped := sizes.filterMap (fun e =>
      if selfOverwrite env source_path output_dir e.1 then some e.1 else none)
    { exitCode := 0, mkdirs := [output_dir],
      writes := variantWrites ++
        [("favicon.ico", icoContent img), ("og-image.png", ogContent img)],
      skips := skipped }

/-- Lines 129-137, main: with fewer than two argv entries print usage and
exit 1; otherwise argv[1] is the source and argv[2] (when present) the output
directory, all further arguments being ignored.  (Lean reserves the name
main for executables, hence the pymain name.) -/
def pymain (env : Env) (argv : List String) : RunResult :=
  if argv.length < 2 then
    { exitCode := 1, mkdirs := [], writes := [], skips := [] }
  else
    resize_logo env (argv.getD 1 "")
      (if 2 < argv.length then argv.getD 2 "" else ".")

/-- Concrete 100x80 RGB test image used by witnesses. -/
def imgA : Img :=
  { width := 100, height := 80, mode := "RGB", px := fun _ _ => ⟨10, 20, 30, 40⟩ }

/-- Environment where no path exists. -/
def envNoSrc : Env :=
  { sourceExists := fun _ => false, decodes := fun _ => false,
    decode := fun _ => imgA, resolve := fun s => s }

/-- Environment where every path exists and decodes to imgA; resolution is
the identity, so no output name collides with the source "logo-src.png". -/
def envOk : Env :=
  { sourceExists := fun _ => true, decodes := fun _ => true,
    decode := fun _ => imgA, resolve := fun s => s }

/-- Environment identical to envOk but used with a source path that resolves
onto an output file, for the guard-related claims. -/
def envClash : Env :=
  { sourceExists := fun _ => true, decodes := fun _ => true,
    decode := fun _ => imgA, resolve := fun s => s }

/-- Concrete 5x3 RGBA test image, small enough for hand evaluation. -/
def imgB : Img :=
  { width := 5, height := 3, mode := "RGBA", px := fun _ _ => ⟨0, 0, 0, 0⟩ }

lemma round_aspect_one_le (q : ℚ) (key : ℤ → ℚ) : 1 ≤ round_aspect q key :=
  le_max_right _ _

lemma round_aspect_le (q : ℚ) (key : ℤ → ℚ) {m : ℤ} (hceil : ⌈q⌉ ≤ m)
    (hm : 1 ≤ m) : round_aspect q key ≤ m := by
  unfold round_aspect
  refine max_le ?_ hm
  split
  · exact le_trans (Int.floor_le_ceil q) hceil
  · exact hceil

lemma round_aspect_close (q : ℚ) (key : ℤ → ℚ) (hq : 0 < q) :
    |((round_aspect q key : ℤ) : ℚ) - q| < 1 := by
  unfold round_aspect
  rcases le_or_lt (if key ⌊q⌋ ≤ key ⌈q⌉ then ⌊q⌋ else ⌈q⌉) 1 with hle | hlt
  · rw [max_eq_right hle]
    have hql : q < 2 := by
      by_contra hq2
      push_neg at hq2
      have : (2 : ℤ) ≤ ⌊q⌋ := by
        have := Int.le_floor.mpr (by exact_mod_cast hq2 : ((2 : ℤ) : ℚ) ≤ q)
        exact this
      have hc2 : (2 : ℤ) ≤ ⌈q⌉ := le_trans this (Int.floor_le_ceil q)
      split at hle <;> omega
    have h1 : |(((1 : ℤ) : ℚ)) - q| = |1 - q| := by norm_num
    rw [h1, abs_sub_lt_iff]
    constructor <;> linarith
  · rw [max_eq_left (le_of_lt hlt)]
    split
    · rw [abs_sub_comm, abs_of_nonneg (by linarith [Int.floor_le q])]
      linarith [Int.sub_one_lt_floor q]
    · rw [abs_of_nonneg (by linarith [Int.le_ceil q])]
      linarith [Int.ceil_lt_add_one q]

lemma thumbnailSize_of_fits {w h tw th : ℕ} (hw : w ≤ tw) (hh : h ≤ th) :
    thumbnailSize w h tw th = (w, h) := by
  rw [thumbnailSize, if_pos ⟨hw, hh⟩]

lemma thumbnailSize_le {w h tw th : ℕ} (hw : 1 ≤ w) (hh : 1 ≤ h)
    (htw : 1 ≤ tw) (hth : 1 ≤ th) :
    (thumbnailSize w h tw th).1 ≤ tw ∧ (thumbnailSize w h tw th).2 ≤ th := by
  have hw0 : (0 : ℚ) < (w : ℚ) := by exact_mod_cast hw
  have hh0 : (0 : ℚ) < (h : ℚ) := by exact_mod_cast hh
  have htw0 : (0 : ℚ) < (tw : ℚ) := by exact_mod_cast htw
  have hth0 : (0 : ℚ) < (th : ℚ) := by exact_mod_cast hth
  have haspect : (0 : ℚ) < (w : ℚ) / (h : ℚ) := div_pos hw0 hh0
  rw [thumbnailSize]
  split
  · rename_i hc
    exact ⟨hc.1, hc.2⟩
  · dsimp only
    split
    · rename_i hge
      refine ⟨?_, le_refl th⟩
      have hmul : (th : ℚ) * ((w : ℚ) / (h : ℚ)) ≤ (tw : ℚ) := by
        have := mul_le_mul_of_nonneg_left hge (le_of_lt hth0)
        calc (th : ℚ) * ((w : ℚ) / (h : ℚ)) ≤ (th : ℚ) * ((tw : ℚ) / (th : ℚ)) := this
          _ = (tw : ℚ) := by field_simp
      have hceil : ⌈(th : ℚ) * ((w : ℚ) / (h : ℚ))⌉ ≤ (tw : ℤ) := by
        refine Int.ceil_le.mpr ?_
        exact_mod_cast hmul
      have hra := round_aspect_le ((th : ℚ) * ((w : ℚ) / (h : ℚ)))
        (fun n => |(w : ℚ) / (h : ℚ) - (n : ℚ) / (th : ℚ)|) hceil (by exact_mod_cast htw)
      exact Int.toNat_le.mpr hra
    · rename_i hlt
      refine ⟨le_refl tw, ?_⟩
      push_neg at hlt
      have hdivlt : (tw : ℚ) / ((w : ℚ) / (h : ℚ)) < (th : ℚ) := by
        rw [div_lt_iff₀ haspect]
        rw [div_lt_iff₀ hth0] at hlt
        linarith [hlt]
      have hceil : ⌈(tw : ℚ) / ((w : ℚ) / (h : ℚ))⌉ ≤ (th : ℤ) := by
        refine Int.ceil_le.mpr ?_
        exact_mod_cast le_of_lt hdivlt
      have hra := round_aspect_le ((tw : ℚ) / ((w : ℚ) / (h : ℚ)))
        (fun n => if n = 0 then 0 else |(w : ℚ) / (h : ℚ) - (tw : ℚ) / (n : ℚ)|)
        hceil (by exact_mod_cast hth)
      exact Int.toNat_le.mpr hra

lemma toNat_cast_of_one_le {z : ℤ} (hz : 1 ≤ z) : ((z.toNat : ℤ) : ℚ) = (z : ℚ) := by
  rw [Int.toNat_of_nonneg (by omega)]

lemma thumbnailSize_aspect_close {w h tw th : ℕ} (hw : 1 ≤ w) (hh : 1 ≤ h)
    (htw : 1 ≤ tw) (hth : 1 ≤ th) (hnofit : ¬(w ≤ tw ∧ h ≤ th)) :
    ((thumbnailSize w h tw th).2 = th ∧
      |((thumbnailSize w h tw th).1 : ℚ) - (th : ℚ) * ((w : ℚ) / (h : ℚ))| < 1) ∨
    ((thumbnailSize w h tw th).1 = tw ∧
      |((thumbnailSize w h tw th).2 : ℚ) - (tw : ℚ) / ((w : ℚ) / (h : ℚ))| < 1) := by
  have hw0 : (0 : ℚ) < (w : ℚ) := by exact_mod_cast hw
  have hh0 : (0 : ℚ) < (h : ℚ) := by exact_mod_cast hh
  have htw0 : (0 : ℚ) < (tw : ℚ) := by exact_mod_cast htw
  have hth0 : (0 : ℚ) < (th : ℚ) := by exact_mod_cast hth
  have haspect : (0 : ℚ) < (w : ℚ) / (h : ℚ) := div_pos hw0 hh0
  rw [thumbnailSize, if_neg (by exact fun hc => hnofit ⟨hc.1, hc.2⟩)]
  dsimp only
  split
  · left
    refine ⟨rfl, ?_⟩
    have hq : (0 : ℚ) < (th : ℚ) * ((w : ℚ) / (h : ℚ)) := mul_pos hth0 haspect
    have := round_aspect_close ((th : ℚ) * ((w : ℚ) / (h : ℚ)))
      (fun n => |(w : ℚ) / (h : ℚ) - (n : ℚ) / (th : ℚ)|) hq
    rwa [← toNat_cast_of_one_le (round_aspect_one_le _ _)] at this
  · right
    refine ⟨rfl, ?_⟩
    have hq : (0 : ℚ) < (tw : ℚ) / ((w : ℚ) / (h : ℚ)) := div_pos htw0 haspect
    have := round_aspect_close ((tw : ℚ) / ((w : ℚ) / (h : ℚ)))
      (fun n => if n = 0 then 0 else |(w : ℚ) / (h : ℚ) - (tw : ℚ) / (n : ℚ)|) hq
    rwa [← toNat_cast_of_one_le (round_aspect_one_le _ _)] at this

lemma fitAndCenter_width (img : Img) (sz : ℕ × ℕ) :
    (fitAndCenter img sz).width = sz.1 := rfl

lemma fitAndCenter_height (img : Img) (sz : ℕ × ℕ) :
    (fitAndCenter img sz).height = sz.2 := rfl

lemma toRGBA_width (img : Img) : (toRGBA img).width = img.width := by
  rw [toRGBA, convert]
  split <;> simp

lemma toRGBA_height (img : Img) : (toRGBA img).height = img.height := by
  rw [toRGBA, convert]
  split <;> simp

lemma sizes_names_ne :
    ∀ e ∈ sizes, e.1 ≠ "favicon.ico" ∧ e.1 ≠ "og-image.png" := by decide

lemma resize_logo_ok (env : Env) (src out : String)
    (hs : env.sourceExists src = true) (hd : env.decodes src = true) :
    resize_logo env src out =
      { exitCode := 0, mkdirs := [out],
        writes := (sizes.filterMap (fun e =>
            if selfOverwrite env src out e.1 then none
            else some (e.1, variantContent (toRGBA (env.decode src)) e.2))) ++
          [("favicon.ico", icoContent (toRGBA (env.decode src))),
           ("og-image.png", ogContent (toRGBA (env.decode src)))],
        skips := sizes.filterMap (fun e =>
            if selfOverwrite env src out e.1 then some e.1 else none) } := by
  rw [resize_logo, if_neg (by simp [hs]), if_neg (by simp [hd])]

lemma mem_writes_names (env : Env) (src out : String)
    (hs : env.sourceExists src = true) (hd : env.decodes src = true)
    (f : String) :
    f ∈ (resize_logo env src out).writes.map Prod.fst ↔
      ((∃ e ∈ sizes, f = e.1 ∧ selfOverwrite env src out e.1 = false) ∨
       f = "favicon.ico" ∨ f = "og-image.png") := by
  rw [resize_logo_ok env src out hs hd]
  simp only [List.map_append, List.mem_append, List.mem_map, List.mem_filterMap]
  constructor
  · rintro (⟨⟨g, c⟩, ⟨e, he, hsome⟩, hfst⟩ | hf)
    · left
      split at hsome
      · exact absurd hsome (by simp)
      · rename_i hguard
        refine ⟨e, he, ?_, by simpa using hguard⟩
        cases hsome
        simpa using hfst.symm
    · right
      rcases (by simpa using hf : "favicon.ico" = f ∨ "og-image.png" = f) with h | h
      · exact Or.inl h.symm
      · exact Or.inr h.symm
  · rintro (⟨e, he, hf, hguard⟩ | hf | hf)
    · left
      refine ⟨(e.1, variantContent (toRGBA (env.decode src)) e.2),
        ⟨e, he, ?_⟩, by simpa using hf.symm⟩
      rw [if_neg (by simp [hguard])]
    · right
      simp [hf]
    · right
      simp [hf]

lemma thumbnailSize_100_80_16_16 : thumbnailSize 100 80 16 16 = (16, 13) := by
  rw [thumbnailSize]
  norm_num [round_aspect]
  rw [show ⌈(64 : ℚ) / 5⌉ = 13 by norm_num [Int.ceil_eq_iff]]
  norm_num
  rw [abs_of_pos (by norm_num), abs_of_pos (by norm_num)]
  norm_num
  decide

lemma thumbnailSize_5_3_4_4 : thumbnailSize 5 3 4 4 = (4, 2) := by
  rw [thumbnailSize]
  norm_num [round_aspect]
  rw [show ⌈(12 : ℚ) / 5⌉ = 3 by norm_num [Int.ceil_eq_iff]]
  norm_num
  decide

/-- C2 counterexample: with a non-existent source the run exits 1 and writes
no file, but the output directory IS created (mkdir on line 39 runs before
the existence check on line 41), refuting the claim's "no directory is
created". -/
theorem missing_source_still_mkdirs_cex :
    (resize_logo envNoSrc "missing.png" "outdir").exitCode = 1 ∧
    (resize_logo envNoSrc "missing.png" "outdir").writes = [] ∧
    (resize_logo envNoSrc "missing.png" "outdir").mkdirs ≠ [] := by
  refine ⟨rfl, rfl, ?_⟩
  have h : (resize_logo envNoSrc "missing.png" "outdir").mkdirs = ["outdir"] := rfl
  rw [h]
  simp

/-- C2 amended: for every invocation whose source path does not resolve to an
existing file, the program exits with code 1 and writes no file and records
no skips, but it does create the output directory first. -/
theorem missing_source_exit1_no_file_writes (env : Env) (src out : String)
    (h : env.sourceExists src = false) :
    (resize_logo env src out).exitCode = 1 ∧
    (resize_logo env src out).writes = [] ∧
    (resize_logo env src out).mkdirs = [out] ∧
    (resize_logo env src out).skips = [] := by
  rw [resize_logo, if_pos h]
  exact ⟨rfl, rfl, rfl, rfl⟩

/-- Witness for the C2 theorem at a concrete environment. -/
theorem missing_source_exit1_no_file_writes_witness :
    envNoSrc.sourceExists "missing.png" = false ∧
    ((resize_logo envNoSrc "missing.png" "outdir").exitCode = 1 ∧
     (resize_logo envNoSrc "missing.png" "outdir").writes = [] ∧
     (resize_logo envNoSrc "missing.png" "outdir").mkdirs = ["outdir"] ∧
     (resize_logo envNoSrc "missing.png" "outdir").skips = []) :=
  ⟨rfl, missing_source_exit1_no_file_writes envNoSrc "missing.png" "outdir" rfl⟩

/-- C10: every command-line argument after the second is ignored; the run on
prog :: src :: out :: rest is identical to the run on [prog, src, out]. -/
theorem extra_cli_args_ignored (env : Env) (prog src out : String)
    (rest : List String) :
    pymain env (prog :: src :: out :: rest) = pymain env [prog, src, out] := by
  have h1 : ¬((prog :: src :: out :: rest).length < 2) := by
    simp only [List.length_cons]
    omega
  have h2 : (2 : ℕ) < (prog :: src :: out :: rest).length := by
    simp only [List.length_cons]
    omega
  have h3 : ¬(([prog, src, out] : List String).length < 2) := by simp
  have h4 : (2 : ℕ) < ([prog, src, out] : List String).length := by simp
  rw [pymain, pymain, if_neg h1, if_pos h2, if_neg h3, if_pos h4]
  rfl

/-- C3: fitAndCenter pastes the scaled image at offsets computed by Python
floor division, x = (targetWidth - scaledWidth) // 2 and
y = (targetHeight - scaledHeight) // 2; the offset is nonnegative, never
larger than the opposite padding, and when the leftover is odd the extra
pixel of padding lies on the right/bottom side. -/
theorem centering_floor_division_bias (img : Img) (sz : ℕ × ℕ)
    (hw : 1 ≤ img.width) (hh : 1 ≤ img.height)
    (h1 : 1 ≤ sz.1) (h2 : 1 ≤ sz.2) :
    fitAndCenter img sz =
      paste (Image_new "RGBA" sz ⟨0, 0, 0, 0⟩) (thumbnail img sz)
        (Int.fdiv ((sz.1 : ℤ) - ((thumbnail img sz).width : ℤ)) 2)
        (Int.fdiv ((sz.2 : ℤ) - ((thumbnail img sz).height : ℤ)) 2) ∧
    0 ≤ centerOffset sz.1 (thumbnail img sz).width ∧
    centerOffset sz.1 (thumbnail img sz).width ≤
      (sz.1 : ℤ) - (thumbnail img sz).width -
        centerOffset sz.1 (thumbnail img sz).width ∧
    (((sz.1 : ℤ) - (thumbnail img sz).width) % 2 = 1 →
      (sz.1 : ℤ) - (thumbnail img sz).width -
          centerOffset sz.1 (thumbnail img sz).width =
        centerOffset sz.1 (thumbnail img sz).width + 1) ∧
    0 ≤ centerOffset sz.2 (thumbnail img sz).height ∧
    centerOffset sz.2 (thumbnail img sz).height ≤
      (sz.2 : ℤ) - (thumbnail img sz).height -
        centerOffset sz.2 (thumbnail img sz).height ∧
    (((sz.2 : ℤ) - (thumbnail img sz).height) % 2 = 1 →
      (sz.2 : ℤ) - (thumbnail img sz).height -
          centerOffset sz.2 (thumbnail img sz).height =
        centerOffset sz.2 (thumbnail img sz).height + 1) := by
  have hb := @thumbnailSize_le img.width img.height sz.1 sz.2 hw hh h1 h2
  have hwle : (thumbnail img sz).width ≤ sz.1 := hb.1
  have hhle : (thumbnail img sz).height ≤ sz.2 := hb.2
  refine ⟨rfl, ?_⟩
  unfold centerOffset
  rw [Int.fdiv_eq_ediv _ (by norm_num), Int.fdiv_eq_ediv _ (by norm_num)]
  refine ⟨?_, ?_, ?_, ?_, ?_, ?_⟩ <;> omega

/-- Witness for the C3 theorem: a 100x80 source in a 16x16 box scales to
16x13, the vertical leftover 3 is odd, and the bottom padding exceeds the top
offset by one pixel. -/
theorem centering_floor_division_bias_witness :
    (16 : ℤ) - (thumbnail imgA (16, 16)).height -
        centerOffset 16 (thumbnail imgA (16, 16)).height =
      centerOffset 16 (thumbnail imgA (16, 16)).height + 1 := by
  have h0 : (thumbnail imgA (16, 16)).height = (thumbnailSize 100 80 16 16).2 := rfl
  have hth : (thumbnail imgA (16, 16)).height = 13 := by
    rw [h0, thumbnailSize_100_80_16_16]
  exact (centering_floor_division_bias imgA (16, 16) (by norm_num [imgA])
      (by norm_num [imgA]) (by norm_num) (by norm_num)).2.2.2.2.2.2
    (by rw [hth]; decide)

/-- C4 counterexample: a 5x3 source shrunk into a 4x4 box becomes 4x2 (PIL
rounds the proportional 2.4 down), whose aspect ratio 2 differs from the
source's 5/3, refuting "its aspect ratio equals the source's". -/
theorem thumbnail_aspect_not_exact_cex :
    (thumbnail imgB (4, 4)).width = 4 ∧ (thumbnail imgB (4, 4)).height = 2 ∧
    ¬(((thumbnail imgB (4, 4)).width : ℚ) / ((thumbnail imgB (4, 4)).height : ℚ) =
      (imgB.width : ℚ) / (imgB.height : ℚ)) := by
  have h1 : (thumbnail imgB (4, 4)).width = (thumbnailSize 5 3 4 4).1 := rfl
  have h2 : (thumbnail imgB (4, 4)).height = (thumbnailSize 5 3 4 4).2 := rfl
  rw [h1, h2, thumbnailSize_5_3_4_4]
  norm_num [imgB]

/-- C4 amended: the scaled intermediate image never exceeds the target box
and is never upscaled (a source that already fits is left unchanged); when
scaling occurs the limiting dimension equals the target and the other
dimension is within one pixel of the exactly proportional value (integer
rounding), rather than preserving the aspect ratio exactly. -/
theorem thumbnail_box_never_upscale (img : Img) (sz : ℕ × ℕ)
    (hw : 1 ≤ img.width) (hh : 1 ≤ img.height)
    (h1 : 1 ≤ sz.1) (h2 : 1 ≤ sz.2) :
    (thumbnail img sz).width ≤ sz.1 ∧ (thumbnail img sz).height ≤ sz.2 ∧
    (img.width ≤ sz.1 → img.height ≤ sz.2 →
      (thumbnail img sz).width = img.width ∧
      (thumbnail img sz).height = img.height) ∧
    (¬(img.width ≤ sz.1 ∧ img.height ≤ sz.2) →
      (((thumbnail img sz).height = sz.2 ∧
        |((thumbnail img sz).width : ℚ) -
          (sz.2 : ℚ) * ((img.width : ℚ) / (img.height : ℚ))| < 1) ∨
       ((thumbnail img sz).width = sz.1 ∧
        |((thumbnail img sz).height : ℚ) -
          (sz.1 : ℚ) / ((img.width : ℚ) / (img.height : ℚ))| < 1))) := by
  have hb := @thumbnailSize_le img.width img.height sz.1 sz.2 hw hh h1 h2
  refine ⟨hb.1, hb.2, ?_, ?_⟩
  · intro hfw hfh
    have h := thumbnailSize_of_fits hfw hfh
    constructor
    · show (thumbnailSize img.width img.height sz.1 sz.2).1 = img.width
      rw [h]
    · show (thumbnailSize img.width img.height sz.1 sz.2).2 = img.height
      rw [h]
  · intro hnofit
    exact thumbnailSize_aspect_close hw hh h1 h2 hnofit

/-- Witness for the C4 theorem at the concrete 100x80 source and 16x16 box. -/
theorem thumbnail_box_never_upscale_witness :
    1 ≤ imgA.width ∧ (thumbnail imgA (16, 16)).width ≤ 16 :=
  ⟨by norm_num [imgA],
   (thumbnail_box_never_upscale imgA (16, 16) (by norm_num [imgA])
     (by norm_num [imgA]) (by norm_num) (by norm_num)).1⟩

/-- C1 counterexample: with identity path resolution, a run whose source is
./favicon.ico still writes favicon.ico — the self-overwrite guard (line 71)
protects only the seven sized variants, not favicon.ico (lines 100-106) or
og-image.png (lines 121-122). -/
theorem overwrite_guard_missing_ico_cex :
    selfOverwrite envClash "./favicon.ico" "." "favicon.ico" = true ∧
    "favicon.ico" ∈
      (resize_logo envClash "./favicon.ico" ".").writes.map Prod.fst := by
  refine ⟨rfl, ?_⟩
  exact (mem_writes_names envClash "./favicon.ico" "." rfl rfl
    "favicon.ico").mpr (Or.inr (Or.inl rfl))

/-- C1 amended: the seven sized PNG variants are never written when their
resolved output path equals the resolved source path, but favicon.ico and
og-image.png are written unconditionally, with no self-overwrite guard. -/
theorem overwrite_guard_variants_only (env : Env) (src out : String)
    (hs : env.sourceExists src = true) (hd : env.decodes src = true) :
    (∀ e ∈ sizes, selfOverwrite env src out e.1 = true →
      e.1 ∉ (resize_logo env src out).writes.map Prod.fst) ∧
    "favicon.ico" ∈ (resize_logo env src out).writes.map Prod.fst ∧
    "og-image.png" ∈ (resize_logo env src out).writes.map Prod.fst := by
  refine ⟨?_, ?_, ?_⟩
  · intro e he hguard hmem
    rcases (mem_writes_names env src out hs hd e.1).mp hmem with
      ⟨e2, _, hf, hg2⟩ | hf | hf
    · rw [← hf, hguard] at hg2
      cases hg2
    · exact (sizes_names_ne e he).1 hf
    · exact (sizes_names_ne e he).2 hf
  · exact (mem_writes_names env src out hs hd _).mpr (Or.inr (Or.inl rfl))
  · exact (mem_writes_names env src out hs hd _).mpr (Or.inr (Or.inr rfl))

/-- Witness for the C1 amended theorem at a concrete environment. -/
theorem overwrite_guard_variants_only_witness :
    envOk.sourceExists "logo-src.png" = true ∧
    "favicon.ico" ∈ (resize_logo envOk "logo-src.png" "out").writes.map Prod.fst :=
  ⟨rfl, (overwrite_guard_variants_only envOk "logo-src.png" "out" rfl rfl).2.1⟩

/-- C5: for a source that exists and decodes, the files written are exactly
the seven sized-variant names minus those skipped by the self-overwrite
guard, plus favicon.ico and og-image.png, and nothing else. -/
theorem run_writes_exactly_nine_minus_skips (env : Env) (src out f : String)
    (hs : env.sourceExists src = true) (hd : env.decodes src = true) :
    f ∈ (resize_logo env src out).writes.map Prod.fst ↔
      ((f ∈ sizes.map Prod.fst ∧ selfOverwrite env src out f = false) ∨
       f = "favicon.ico" ∨ f = "og-image.png") := by
  rw [mem_writes_names env src out hs hd f]
  constructor
  · rintro (⟨e, he, hf, hg⟩ | hf)
    · left
      refine ⟨List.mem_map.mpr ⟨e, he, hf.symm⟩, ?_⟩
      rw [hf]
      exact hg
    · right
      exact hf
  · rintro (⟨hmem, hg⟩ | hf)
    · rcases List.mem_map.mp hmem with ⟨e, he, hfe⟩
      left
      refine ⟨e, he, hfe.symm, ?_⟩
      rw [hfe]
      exact hg
    · right
      exact hf

/-- Witness for the C5 theorem at a concrete environment and filename. -/
theorem run_writes_exactly_nine_minus_skips_witness :
    "logo-64.png" ∈ (resize_logo envOk "logo-src.png" "out").writes.map Prod.fst ↔
      (("logo-64.png" ∈ sizes.map Prod.fst ∧
        selfOverwrite envOk "logo-src.png" "out" "logo-64.png" = false) ∨
       "logo-64.png" = "favicon.ico" ∨ "logo-64.png" = "og-image.png") :=
  run_writes_exactly_nine_minus_skips envOk "logo-src.png" "out" "logo-64.png" rfl rfl

lemma sizes_name_inj : ∀ e ∈ sizes, ∀ e2 ∈ sizes, e.1 = e2.1 → e = e2 := by decide

lemma mem_writes_pairs (env : Env) (src out : String)
    (hs : env.sourceExists src = true) (hd : env.decodes src = true)
    (f : String) (c : FileContent) :
    (f, c) ∈ (resize_logo env src out).writes ↔
      ((∃ e ∈ sizes, f = e.1 ∧ selfOverwrite env src out e.1 = false ∧
         c = variantContent (toRGBA (env.decode src)) e.2) ∨
       (f = "favicon.ico" ∧ c = icoContent (toRGBA (env.decode src))) ∨
       (f = "og-image.png" ∧ c = ogContent (toRGBA (env.decode src)))) := by
  rw [resize_logo_ok env src out hs hd]
  simp only [List.mem_append, List.mem_filterMap, List.mem_cons,
    List.mem_singleton, List.not_mem_nil, or_false]
  constructor
  · rintro (⟨e, he, hsome⟩ | hpair | hpair)
    · left
      split at hsome
      · exact absurd hsome (by simp)
      · rename_i hguard
        refine ⟨e, he, ?_, by simpa using hguard, ?_⟩
        · exact congrArg Prod.fst (Option.some.inj hsome) |>.symm ▸ rfl
        · exact (congrArg Prod.snd (Option.some.inj hsome)).symm
    · right; left
      exact ⟨congrArg Prod.fst hpair, congrArg Prod.snd hpair⟩
    · right; right
      exact ⟨congrArg Prod.fst hpair, congrArg Prod.snd hpair⟩
  · rintro (⟨e, he, hf, hguard, hc⟩ | ⟨hf, hc⟩ | ⟨hf, hc⟩)
    · left
      refine ⟨e, he, ?_⟩
      rw [if_neg (by simp [hguard])]
      rw [hf, hc]
    · right; left
      rw [hf, hc]
    · right; right
      rw [hf, hc]

/-- C6: every sized-variant PNG that the run writes is a PNG whose pixel
dimensions equal that entry of the sizes table exactly, for every source
image whatsoever. -/
theorem variant_dims_match_spec (env : Env) (src out : String)
    (e : String × ℕ × ℕ) (c : FileContent)
    (hs : env.sourceExists src = true) (hd : env.decodes src = true)
    (he : e ∈ sizes) (hwr : (e.1, c) ∈ (resize_logo env src out).writes) :
    ∃ i, c = FileContent.png i ∧ i.width = e.2.1 ∧ i.height = e.2.2 := by
  rcases (mem_writes_pairs env src out hs hd e.1 c).mp hwr with
    ⟨e2, he2, hf, _, hc⟩ | ⟨hf, _⟩ | ⟨hf, _⟩
  · have heq : e = e2 := sizes_name_inj e he e2 he2 hf
    subst heq
    exact ⟨fitAndCenter (toRGBA (env.decode src)) e.2, hc,
      fitAndCenter_width _ _, fitAndCenter_height _ _⟩
  · exact absurd hf (sizes_names_ne e he).1
  · exact absurd hf (sizes_names_ne e he).2

/-- Witness for the C6 theorem: the favicon-16x16.png entry written by a
concrete run is a 16x16 PNG. -/
theorem variant_dims_match_spec_witness :
    ∃ i, variantContent (toRGBA (envOk.decode "logo-src.png")) (16, 16) =
        FileContent.png i ∧ i.width = 16 ∧ i.height = 16 :=
  variant_dims_match_spec envOk "logo-src.png" "out"
    ("favicon-16x16.png", (16, 16))
    (variantContent (toRGBA (envOk.decode "logo-src.png")) (16, 16))
    rfl rfl (by decide)
    ((mem_writes_pairs envOk "logo-src.png" "out" rfl rfl _ _).mpr
      (Or.inl ⟨("favicon-16x16.png", (16, 16)), by decide, rfl, rfl, rfl⟩))

/-- C7 (code bug): the script builds three independent fitAndCenter canvases
and requests sizes 16x16, 32x32 and 48x48 (its docstring and the line 107
message promise all three), but it passes the 16x16 canvas as the base image
of the save call, and Pillow's ICO encoder drops every requested size larger
than the base image; the favicon.ico actually written embeds exactly one
frame, the 16x16 canvas, for every source image. -/
theorem favicon_ico_single_frame (env : Env) (src out : String)
    (hs : env.sourceExists src = true) (hd : env.decodes src = true) :
    ("favicon.ico", icoContent (toRGBA (env.decode src))) ∈
      (resize_logo env src out).writes ∧
    icoContent (toRGBA (env.decode src)) =
      FileContent.ico [fitAndCenter (toRGBA (env.decode src)) (16, 16)] ∧
    (fitAndCenter (toRGBA (env.decode src)) (16, 16)).width = 16 ∧
    (fitAndCenter (toRGBA (env.decode src)) (16, 16)).height = 16 := by
  refine ⟨?_, rfl, rfl, rfl⟩
  exact (mem_writes_pairs env src out hs hd _ _).mpr
    (Or.inr (Or.inl ⟨rfl, rfl⟩))

/-- Witness for the C7 theorem: a concrete run writes favicon.ico containing
only the 16x16 frame. -/
theorem favicon_ico_single_frame_witness :
    ("favicon.ico", icoContent (toRGBA (envOk.decode "logo-src.png"))) ∈
      (resize_logo envOk "logo-src.png" "out").writes ∧
    icoContent (toRGBA (envOk.decode "logo-src.png")) =
      FileContent.ico [fitAndCenter (toRGBA (envOk.decode "logo-src.png")) (16, 16)] := by
  have h := favicon_ico_single_frame envOk "logo-src.png" "out" rfl rfl
  exact ⟨h.1, h.2.1⟩

lemma makeOg_eq (img : Img) :
    makeOg img =
      convert (pasteMask (Image_new "RGBA" (1200, 630) ⟨255, 255, 255, 255⟩)
        (thumbnail img (300, 300))
        (centerOffset 1200 (thumbnail img (300, 300)).width)
        (centerOffset 630 (thumbnail img (300, 300)).height)) "RGB" := rfl

lemma makeOg_px_outside (img : Img) (i j : ℤ)
    (hij : ¬(centerOffset 1200 (thumbnail img (300, 300)).width ≤ i ∧
      i < centerOffset 1200 (thumbnail img (300, 300)).width +
        (thumbnail img (300, 300)).width ∧
      centerOffset 630 (thumbnail img (300, 300)).height ≤ j ∧
      j < centerOffset 630 (thumbnail img (300, 300)).height +
        (thumbnail img (300, 300)).height)) :
    (makeOg img).px i j = ⟨255, 255, 255, 255⟩ := by
  rw [makeOg_eq, convert]
  rw [if_pos rfl]
  dsimp only [pasteMask]
  rw [if_neg hij]
  rfl

/-- C8: the run writes og-image.png; the banner is exactly 1200x630, its mode
is "RGB" (no alpha channel encoded), and all four corner pixels are opaque
white. -/
theorem og_image_opaque_white (env : Env) (src out : String)
    (hs : env.sourceExists src = true) (hd : env.decodes src = true)
    (hw : 1 ≤ (env.decode src).width) (hh : 1 ≤ (env.decode src).height) :
    ("og-image.png", ogContent (toRGBA (env.decode src))) ∈
      (resize_logo env src out).writes ∧
    (makeOg (toRGBA (env.decode src))).width = 1200 ∧
    (makeOg (toRGBA (env.decode src))).height = 630 ∧
    (makeOg (toRGBA (env.decode src))).mode = "RGB" ∧
    (makeOg (toRGBA (env.decode src))).px 0 0 = ⟨255, 255, 255, 255⟩ ∧
    (makeOg (toRGBA (env.decode src))).px 1199 0 = ⟨255, 255, 255, 255⟩ ∧
    (makeOg (toRGBA (env.decode src))).px 0 629 = ⟨255, 255, 255, 255⟩ ∧
    (makeOg (toRGBA (env.decode src))).px 1199 629 = ⟨255, 255, 255, 255⟩ := by
  set img := toRGBA (env.decode src) with himg
  have hw1 : 1 ≤ img.width := by rw [himg, toRGBA_width]; exact hw
  have hh1 : 1 ≤ img.height := by rw [himg, toRGBA_height]; exact hh
  have hb := @thumbnailSize_le img.width img.height 300 300 hw1 hh1
    (by norm_num) (by norm_num)
  have hlw : (thumbnail img (300, 300)).width ≤ 300 := hb.1
  have hlh : (thumbnail img (300, 300)).height ≤ 300 := hb.2
  have hx : centerOffset 1200 (thumbnail img (300, 300)).width =
      ((1200 : ℤ) - (thumbnail img (300, 300)).width) / 2 := by
    rw [centerOffset, Int.fdiv_eq_ediv _ (by norm_num)]
    norm_num
  have hy : centerOffset 630 (thumbnail img (300, 300)).height =
      ((630 : ℤ) - (thumbnail img (300, 300)).height) / 2 := by
    rw [centerOffset, Int.fdiv_eq_ediv _ (by norm_num)]
    norm_num
  refine ⟨?_, rfl, rfl, rfl, ?_, ?_, ?_, ?_⟩
  · exact (mem_writes_pairs env src out hs hd _ _).mpr
      (Or.inr (Or.inr ⟨rfl, rfl⟩))
  all_goals
    refine makeOg_px_outside img _ _ ?_
  · intro hc
    omega
  · intro hc
    omega
  · intro hc
    omega
  · intro hc
    omega

/-- Witness for the C8 theorem at a concrete environment and 100x80 source. -/
theorem og_image_opaque_white_witness :
    (makeOg (toRGBA (envOk.decode "logo-src.png"))).mode = "RGB" ∧
    (makeOg (toRGBA (envOk.decode "logo-src.png"))).px 0 0 = ⟨255, 255, 255, 255⟩ :=
  ⟨(og_image_opaque_white envOk "logo-src.png" "out" rfl rfl
      (by decide) (by decide)).2.2.2.1,
   (og_image_opaque_white envOk "logo-src.png" "out" rfl rfl
      (by decide) (by decide)).2.2.2.2.1⟩

/-- C9: when a sized variant's resolved output path equals the resolved
source path, that entry is reported skipped and is not written, every sized
variant whose path does not clash is still written, favicon.ico and
og-image.png are still written, and the run exits with code 0. -/
theorem self_overwrite_skip_recoverable (env : Env) (src out : String)
    (f0 : String) (sz0 : ℕ × ℕ)
    (hs : env.sourceExists src = true) (hd : env.decodes src = true)
    (hmem : (f0, sz0) ∈ sizes) (hov : selfOverwrite env src out f0 = true) :
    (resize_logo env src out).exitCode = 0 ∧
    f0 ∈ (resize_logo env src out).skips ∧
    f0 ∉ (resize_logo env src out).writes.map Prod.fst ∧
    (∀ e ∈ sizes, selfOverwrite env src out e.1 = false →
      e.1 ∈ (resize_logo env src out).writes.map Prod.fst) ∧
    "favicon.ico" ∈ (resize_logo env src out).writes.map Prod.fst ∧
    "og-image.png" ∈ (resize_logo env src out).writes.map Prod.fst := by
  refine ⟨?_, ?_, ?_, ?_, ?_, ?_⟩
  · rw [resize_logo_ok env src out hs hd]
  · rw [resize_logo_ok env src out hs hd]
    refine List.mem_filterMap.mpr ⟨(f0, sz0), hmem, ?_⟩
    rw [if_pos hov]
  · intro hmemw
    rcases (mem_writes_names env src out hs hd f0).mp hmemw with
      ⟨e2, _, hf, hg2⟩ | hf | hf
    · rw [← hf, hov] at hg2
      cases hg2
    · exact (sizes_names_ne (f0, sz0) hmem).1 hf
    · exact (sizes_names_ne (f0, sz0) hmem).2 hf
  · intro e he hg
    exact (mem_writes_names env src out hs hd e.1).mpr (Or.inl ⟨e, he, rfl, hg⟩)
  · exact (mem_writes_names env src out hs hd _).mpr (Or.inr (Or.inl rfl))
  · exact (mem_writes_names env src out hs hd _).mpr (Or.inr (Or.inr rfl))

/-- Witness for the C9 theorem: with identity path resolution and source
out/favicon-32x32.png, the clashing variant is skipped yet the run exits 0. -/
theorem self_overwrite_skip_recoverable_witness :
    (resize_logo envClash "out/favicon-32x32.png" "out").exitCode = 0 ∧
    "favicon-32x32.png" ∈ (resize_logo envClash "out/favicon-32x32.png" "out").skips ∧
    "favicon-32x32.png" ∉
      (resize_logo envClash "out/favicon-32x32.png" "out").writes.map Prod.fst := by
  have h := self_overwrite_skip_recoverable envClash "out/favicon-32x32.png" "out"
    "favicon-32x32.png" (32, 32) rfl rfl (by decide) rfl
  exact ⟨h.1, h.2.1, h.2.2.1⟩
